/-
Verification of the on-chain data aggregation and verification engine of the
wavey-api repository, as a shallow embedding in Lean 4.

The embedding follows the Python sources:
  * src/services/multicall.py    (batch_calls, _execute_multicall_batch)
  * src/services/boost.py        (BoostService.get_boosts_batch)
  * src/services/constants.py    (MAX_BOOST, PER_MAX_BOOST)
  * src/services/gauge_info.py   (GaugeInfoService cache logic)
  * src/services/verify_gauge.py (verify_gauge, is_valid_contract)
  * src/services/abis/gauge_abi.py (GAUGE_ABI)

Conventions of the embedding:
  * Raw byte strings are `List Nat` (one entry per byte).
  * Python floats are modelled as exact rationals `ℚ`; every property proved
    about them is robust to rounding (they concern clamping bounds, exact
    constants, and zero results).
  * The blockchain RPC endpoint is an oracle record of pure functions: for a
    fixed on-chain state, `eth_call` of a given call is a function of the call.
    Failure of the aggregate submission, of call encoding, and of individual
    calls are separate oracle components.
  * Exceptions are modelled with `Option`/`Except`; a caught exception is the
    `none`/`.error` branch of the corresponding match.
-/
import Mathlib

set_option autoImplicit false

namespace Wavey

/-! ## Bytes and hex rendering -/

/-- Big-endian unsigned integer of a byte string — `int.from_bytes(bs, 'big')`. -/
def beNat (bs : List Nat) : Nat :=
  bs.foldl (fun acc b => 256 * acc + b) 0

/-- Lowercase hex digit of a value `< 16`. -/
def hexDigit (n : Nat) : Char :=
  if n < 10 then Char.ofNat (48 + n) else Char.ofNat (87 + n)

/-- Two-digit lowercase hex rendering of one byte — one step of `bytes.hex()`. -/
def byteHex (b : Nat) : String :=
  String.mk [hexDigit (b / 16 % 16), hexDigit (b % 16)]

/-- `bytes.hex()`: lowercase hex string of a byte string. -/
def hexOfBytes (bs : List Nat) : String :=
  String.join (bs.map byteHex)

/-- `"0x" + bytes.hex()` as built at multicall.py line 147. -/
def hex0x (bs : List Nat) : String :=
  "0x" ++ hexOfBytes bs

/-- `bs.ljust(w, b'\0')`: pad on the right with zero bytes up to width `w`
(identity when already at least `w` long) — multicall.py line 145. -/
def ljustZero (bs : List Nat) (w : Nat) : List Nat :=
  bs ++ List.replicate (w - bs.length) 0

/-- `bs[-k:]`: the last `k` elements (all of `bs` when shorter than `k`). -/
def takeLast (bs : List Nat) (k : Nat) : List Nat :=
  bs.drop (bs.length - k)

/-- The 20 address bytes selected by the source decoder:
`result[i].ljust(40, b'\0')[-20:]` — multicall.py lines 145-146. -/
def addressSlice (bs : List Nat) : List Nat :=
  takeLast (ljustZero bs 40) 20

/-- Modelled from the spec (§4.1), for comparison with `addressSlice`:
"the low-order 20 bytes of the (left-zero-padded-to-32) result". -/
def specAddressSlice (bs : List Nat) : List Nat :=
  takeLast (List.replicate (32 - bs.length) 0 ++ bs) 20

/-! ## Calls, ABI schema, decoded values -/

/-- A decoded typed value (§3 DecodedResult, minus the `null` case which is
`Option.none` one level up). -/
inductive Value where
  | int (n : Nat)
  | addr (s : String)
  | bool (b : Bool)
  | bytes (bs : List Nat)
  deriving DecidableEq, Repr

/-- One `(contract_address, function_name, function_args)` tuple of
`batch_calls` (§3 CallSpec). -/
structure Call where
  target : String
  fn : String
  args : List String
  deriving DecidableEq, Repr

/-- The part of an ABI entry used by the decoder: function name and list of
output types. -/
structure AbiEntry where
  name : String
  outputs : List String
  deriving DecidableEq, Repr

/-- `next((item for item in abi if item.get("name") == function_name), None)`
— multicall.py line 105. -/
def lookupAbi (abi : List AbiEntry) (fn : String) : Option AbiEntry :=
  abi.find? (fun e => e.name == fn)

/-- GAUGE_ABI of src/services/abis/gauge_abi.py (names and output types). -/
def gaugeAbi : List AbiEntry :=
  [⟨"working_balances", ["uint256"]⟩,
   ⟨"balanceOf", ["uint256"]⟩,
   ⟨"factory", ["address"]⟩,
   ⟨"lp_token", ["address"]⟩,
   ⟨"totalSupply", ["uint256"]⟩]

/-- Oracle for a fixed on-chain state plus the web3 library behaviour.
For a fixed state, the result of a read-only contract call is a pure function
of the call, so each outbound dependency is one function field. -/
structure Chain where
  /-- Raw sub-result bytes the aggregator contract returns for one call. -/
  raw : Call → List Nat
  /-- Whether the single aggregate submission itself succeeds
  (the `multicall_contract.functions.aggregate(...).call()` at line 117:
  `false` models the aggregator call reverting or the network call failing). -/
  aggOk : Bool
  /-- Whether web3 succeeds in encoding the arguments of a call
  (`function(*function_args).build_transaction(...)`, line 109). -/
  argsEncodeOk : Call → Bool
  /-- Result of an individual `function(*args).call()` (line 77), already
  decoded by web3; `none` models a revert/any raised exception. -/
  callOne : Call → Option Value
  /-- `contract.decode_function_result` for non-simple output types
  (lines 163-179); `none` models a decode failure, absorbed to null. -/
  complexDecode : String → List Nat → Option Value
  /-- `web3.to_checksum_address`: checksummed rendering of an address string. -/
  toChecksum : String → String

/-- Encoding a call succeeds: the function name is found in the ABI (else
`getattr(contract.functions, fn)` raises) and web3 accepts the arguments. -/
def encodeOk (chain : Chain) (abi : List AbiEntry) (c : Call) : Bool :=
  (lookupAbi abi c.fn).isSome && chain.argsEncodeOk c

/-- The manual decode of one raw sub-result, multicall.py lines 121-179.
The order of checks follows the source: ABI lookup, `output_type`, the empty
check at line 125, then dispatch on the declared output type.  (The comparison
`result[i] == "0x"` at line 125 compares bytes with a string and is always
false in Python 3, so only the emptiness test remains.)  Note the `address`
branch reproduces the source's `ljust(40)` slice as `addressSlice`. -/
def decodeRaw (chain : Chain) (abi : List AbiEntry) (c : Call) (bs : List Nat) :
    Option Value :=
  match lookupAbi abi c.fn with
  | none => none
  | some entry =>
    if bs.isEmpty then none
    else
      match entry.outputs.head? with
      | some "uint256" => some (.int (beNat bs))
      | some "address" => some (.addr (chain.toChecksum (hex0x (addressSlice bs))))
      | some "bool" => some (.bool (decide (beNat bs ≠ 0)))
      | _ => chain.complexDecode c.fn bs

/-! ## batch_calls -/

/-- The fragile-call test of multicall.py line 43: only `lp_token` calls are
expected to legitimately revert. -/
def isFragile (c : Call) : Bool :=
  c.fn == "lp_token"

/-- Write a list of (index, value) updates into a result array —
the `all_results[original_index] = result` loops of lines 65-67 and 73-79. -/
def scatter (init : List (Option Value)) (ps : List (Nat × Option Value)) :
    List (Option Value) :=
  ps.foldl (fun acc p => acc.set p.1 p.2) init

/-- Result of one individual fragile call (lines 73-82): encoding failure
(unknown function) or a revert leaves `none`. -/
def fragileRes (chain : Chain) (abi : List AbiEntry) (c : Call) : Option Value :=
  if (lookupAbi abi c.fn).isSome then chain.callOne c else none

/-- Whether the batched reliable submission succeeds as a whole: every
reliable call encodes and the aggregate call itself succeeds.  Any exception
inside the `try` of lines 62-67 voids the whole reliable batch. -/
def reliableOk (chain : Chain) (abi : List AbiEntry) (calls : List Call) : Bool :=
  chain.aggOk && (calls.filter (fun c => !isFragile c)).all (encodeOk chain abi)

/-- `batch_calls` of multicall.py lines 16-86: partition into reliable and
fragile calls, run the reliable ones as one aggregate submission, run each
fragile one individually, and scatter every result back to its original
position in an array initialised to all-`None`. -/
def batch_calls (chain : Chain) (abi : List AbiEntry) (calls : List Call) :
    List (Option Value) :=
  if calls.isEmpty then []
  else
    let indexed := calls.enum
    let reliable := indexed.filter (fun ic => !isFragile ic.2)
    let fragile := indexed.filter (fun ic => isFragile ic.2)
    let init : List (Option Value) := List.replicate calls.length none
    let afterReliable :=
      if chain.aggOk && reliable.all (fun ic => encodeOk chain abi ic.2) then
        scatter init
          (reliable.map (fun ic => (ic.1, decodeRaw chain abi ic.2 (chain.raw ic.2))))
      else init
    scatter afterReliable (fragile.map (fun ic => (ic.1, fragileRes chain abi ic.2)))

/-- The per-position semantics of `batch_calls`: what ends up at the position
of call `c`, given whether the whole reliable batch succeeded. -/
def callResult (chain : Chain) (abi : List AbiEntry) (rok : Bool) (c : Call) :
    Option Value :=
  if isFragile c then fragileRes chain abi c
  else if rok then decodeRaw chain abi c (chain.raw c)
  else none

/-! ## Helper lemmas about `scatter`, `enum` and `filter` -/

theorem scatter_cons (init : List (Option Value)) (p : Nat × Option Value)
    (ps : List (Nat × Option Value)) :
    scatter init (p :: ps) = scatter (init.set p.1 p.2) ps := rfl

theorem scatter_length (init : List (Option Value)) (ps : List (Nat × Option Value)) :
    (scatter init ps).length = init.length := by
  induction ps generalizing init with
  | nil => rfl
  | cons p ps ih => rw [scatter_cons, ih, List.length_set]

theorem scatter_getElem?_of_not_key {init : List (Option Value)}
    {ps : List (Nat × Option Value)} {i : Nat} (h : ∀ p ∈ ps, p.1 ≠ i) :
    (scatter init ps)[i]? = init[i]? := by
  induction ps generalizing init with
  | nil => rfl
  | cons p ps ih =>
    rw [scatter_cons, ih (fun q hq => h q (List.mem_cons_of_mem _ hq))]
    exact List.getElem?_set_ne (h p (List.mem_cons_self _ _))

theorem scatter_getElem?_of_key {init : List (Option Value)}
    {ps : List (Nat × Option Value)} {i : Nat} {v : Option Value}
    (hnd : (ps.map Prod.fst).Nodup) (hmem : (i, v) ∈ ps) (hlt : i < init.length) :
    (scatter init ps)[i]? = some v := by
  induction ps generalizing init with
  | nil => cases hmem
  | cons p ps ih =>
    simp only [List.map_cons, List.nodup_cons] at hnd
    rcases List.mem_cons.1 hmem with h | h
    · rw [scatter_cons]
      have hni : ∀ q ∈ ps, q.1 ≠ i := by
        intro q hq hqi
        apply hnd.1
        have hm : q.1 ∈ ps.map Prod.fst := List.mem_map_of_mem Prod.fst hq
        have hip : i = p.1 := by rw [← h]
        rwa [hqi, hip] at hm
      rw [scatter_getElem?_of_not_key hni, ← h]
      rw [List.getElem?_set_self']
      simp [List.getElem?_eq_getElem hlt]
    · rw [scatter_cons]
      exact ih hnd.2 h (by rw [List.length_set]; exact hlt)

theorem all_map_general {α β : Type} (f : α → β) (p : β → Bool) (l : List α) :
    (l.map f).all p = l.all (fun x => p (f x)) := by
  induction l with
  | nil => rfl
  | cons a l ih => simp [ih]

theorem map_filter_comm {α β : Type} (f : α → β) (p : β → Bool) (l : List α) :
    (l.filter (fun x => p (f x))).map f = (l.map f).filter p := by
  induction l with
  | nil => rfl
  | cons a l ih => by_cases h : p (f a) <;> simp [List.filter_cons, h, ih]

/-- The reliable-batch success condition computed inside `batch_calls` agrees
with `reliableOk`. -/
theorem reliable_all_eq (chain : Chain) (abi : List AbiEntry) (calls : List Call) :
    (chain.aggOk && (calls.enum.filter (fun ic => !isFragile ic.2)).all
        (fun ic => encodeOk chain abi ic.2))
      = reliableOk chain abi calls := by
  unfold reliableOk
  congr 1
  have hmf : (calls.enum.filter (fun ic => !isFragile ic.2)).map Prod.snd
      = calls.filter (fun c => !isFragile c) := by
    rw [map_filter_comm Prod.snd (fun c => !isFragile c) calls.enum,
      List.enum_map_snd]
  rw [← hmf, all_map_general]

theorem keys_nodup (calls : List Call) (q : Nat × Call → Bool)
    (g : Nat × Call → Option Value) :
    (((calls.enum.filter q).map (fun ic => (ic.1, g ic))).map Prod.fst).Nodup := by
  have heq : ((calls.enum.filter q).map (fun ic => (ic.1, g ic))).map Prod.fst
      = (calls.enum.filter q).map Prod.fst := by
    simp [List.map_map, Function.comp_def]
  rw [heq]
  exact (List.nodup_enum_map_fst calls).sublist ((List.filter_sublist _).map Prod.fst)

/-! ## Characterisation of `batch_calls` -/

/-- `batch_calls` preserves the length of the input batch. -/
theorem batch_calls_length (chain : Chain) (abi : List AbiEntry) (calls : List Call) :
    (batch_calls chain abi calls).length = calls.length := by
  unfold batch_calls
  by_cases h : calls.isEmpty
  · simp [h, List.isEmpty_iff.1 h]
  · simp only [h, Bool.false_eq_true, if_false]
    rw [scatter_length]
    split
    · rw [scatter_length, List.length_replicate]
    · rw [List.length_replicate]

/-- Position `i` of the output of `batch_calls` holds exactly the per-call
result of the call at position `i` of the input. -/
theorem batch_calls_getElem? (chain : Chain) (abi : List AbiEntry)
    (calls : List Call) (i : Nat) (h : i < calls.length) :
    (batch_calls chain abi calls)[i]? =
      some (callResult chain abi (reliableOk chain abi calls) calls[i]) := by
  have hne : calls.isEmpty = false := by
    cases calls
    · simp at h
    · rfl
  have hmem_enum : (i, calls[i]) ∈ calls.enum :=
    List.mk_mem_enum_iff_getElem?.2 (by simp [List.getElem?_eq_getElem h])
  unfold batch_calls
  simp only [hne, Bool.false_eq_true, if_false]
  have hlen_ar :
      (if chain.aggOk && (calls.enum.filter (fun ic => !isFragile ic.2)).all
          (fun ic => encodeOk chain abi ic.2) then
        scatter (List.replicate calls.length none)
          ((calls.enum.filter (fun ic => !isFragile ic.2)).map
            (fun ic => (ic.1, decodeRaw chain abi ic.2 (chain.raw ic.2))))
      else List.replicate calls.length none).length = calls.length := by
    split
    · rw [scatter_length, List.length_replicate]
    · rw [List.length_replicate]
  by_cases hf : isFragile calls[i]
  · -- fragile position: the individually executed call lands back at `i`
    have hmem : (i, fragileRes chain abi calls[i]) ∈
        (calls.enum.filter (fun ic => isFragile ic.2)).map
          (fun ic => (ic.1, fragileRes chain abi ic.2)) :=
      List.mem_map_of_mem _ (List.mem_filter.2 ⟨hmem_enum, by simpa using hf⟩)
    rw [scatter_getElem?_of_key (keys_nodup calls _ _) hmem (by rw [hlen_ar]; exact h)]
    simp [callResult, hf]
  · -- reliable position: untouched by the fragile scatter
    have hnkey : ∀ p ∈ (calls.enum.filter (fun ic => isFragile ic.2)).map
        (fun ic => (ic.1, fragileRes chain abi ic.2)), p.1 ≠ i := by
      intro p hp hpi
      obtain ⟨ic, hic, rfl⟩ := List.mem_map.1 hp
      obtain ⟨hicm, hicf⟩ := List.mem_filter.1 hic
      have : ic.2 = calls[i] := by
        have h2 := List.mk_mem_enum_iff_getElem?.1 (by
          have : ic = (ic.1, ic.2) := rfl
          rw [this] at hicm; exact hpi ▸ hicm)
        rw [List.getElem?_eq_getElem h] at h2
        exact (Option.some.inj h2).symm
      rw [this] at hicf
      simp [hf] at hicf
    rw [scatter_getElem?_of_not_key hnkey]
    by_cases hr : chain.aggOk && (calls.enum.filter (fun ic => !isFragile ic.2)).all
        (fun ic => encodeOk chain abi ic.2)
    · rw [if_pos hr]
      have hmem : (i, decodeRaw chain abi calls[i] (chain.raw calls[i])) ∈
          (calls.enum.filter (fun ic => !isFragile ic.2)).map
            (fun ic => (ic.1, decodeRaw chain abi ic.2 (chain.raw ic.2))) :=
        List.mem_map_of_mem _ (List.mem_filter.2 ⟨hmem_enum, by simpa using hf⟩)
      rw [scatter_getElem?_of_key (keys_nodup calls _ _) hmem
        (by rw [List.length_replicate]; exact h)]
      have hrok : reliableOk chain abi calls = true := by
        rw [← reliable_all_eq chain abi calls]; exact hr
      simp [callResult, hf, hrok]
    · rw [if_neg hr]
      have hrok : reliableOk chain abi calls = false := by
        rw [← reliable_all_eq chain abi calls]
        exact Bool.not_eq_true _ ▸ (by simpa using hr)
      simp [callResult, hf, hrok, List.getElem?_replicate, h]

/-! ## Concrete fixtures used by witnesses -/

/-- A concrete oracle: all encodings succeed, the aggregate call succeeds,
every call has fixed raw results, fragile calls return the target address. -/
def testChain : Chain where
  raw := fun c =>
    if c.fn == "totalSupply" then [100]
    else if c.fn == "working_balances" then [40]
    else [20]
  aggOk := true
  argsEncodeOk := fun _ => true
  callOne := fun c => some (.addr c.target)
  complexDecode := fun _ _ => none
  toChecksum := fun s => s

/-- `testChain` with the aggregate submission failing. -/
def downChain : Chain := { testChain with aggOk := false }

/-- `testChain` with every individual (fragile) call reverting. -/
def revertChain : Chain := { testChain with callOne := fun _ => none }

/-- A batch interleaving reliable and fragile calls. -/
def testCalls : List Call :=
  [⟨"0xgauge", "totalSupply", []⟩,
   ⟨"0xgauge", "lp_token", []⟩,
   ⟨"0xgauge", "balanceOf", ["0xwallet"]⟩]

/-! ## C1 and C2: positional alignment and failure isolation of batch_calls -/

/-- C1: for every input list of calls, `batch_calls` returns a list of exactly
the same length as the input, and for every index `i` the output at position
`i` is the per-call decoded result of the call at position `i` of the input —
for every interleaving of reliable and fragile (`lp_token`) calls, and for
every oracle (hence also when some or all calls fail: failed positions hold
`none` and positions are never shifted or dropped). -/
theorem C1_batch_calls_positional (chain : Chain) (abi : List AbiEntry)
    (calls : List Call) :
    (batch_calls chain abi calls).length = calls.length ∧
    ∀ i (h : i < calls.length),
      (batch_calls chain abi calls)[i]? =
        some (callResult chain abi (reliableOk chain abi calls) calls[i]) :=
  ⟨batch_calls_length chain abi calls,
   fun i h => batch_calls_getElem? chain abi calls i h⟩

/-- Witness for C1 on a concrete interleaved batch. -/
theorem C1_batch_calls_positional_witness :
    (batch_calls testChain gaugeAbi testCalls).length = testCalls.length ∧
    (batch_calls testChain gaugeAbi testCalls)[1]? =
      some (callResult testChain gaugeAbi (reliableOk testChain gaugeAbi testCalls)
        (testCalls.get ⟨1, by decide⟩)) :=
  ⟨(C1_batch_calls_positional testChain gaugeAbi testCalls).1,
   (C1_batch_calls_positional testChain gaugeAbi testCalls).2 1 (by decide)⟩

/-- C2: (a) if the aggregated submission of the reliable calls fails,
`batch_calls` still returns (it is a total function) with `none` at every
reliable position; (b) a fragile call that reverts yields `none` at its own
position; (c) changing only the individual-call behaviour (`callOne`, the one
component fragile calls depend on — e.g. making every fragile call revert)
never changes any reliable call's result in the same batch. -/
theorem C2_batch_calls_failure_isolation (chain : Chain) (abi : List AbiEntry)
    (calls : List Call) :
    (chain.aggOk = false →
      ∀ i (h : i < calls.length), isFragile calls[i] = false →
        (batch_calls chain abi calls)[i]? = some none) ∧
    (∀ i (h : i < calls.length), isFragile calls[i] = true →
      fragileRes chain abi calls[i] = none →
        (batch_calls chain abi calls)[i]? = some none) ∧
    (∀ chain' : Chain, chain'.raw = chain.raw → chain'.aggOk = chain.aggOk →
      chain'.argsEncodeOk = chain.argsEncodeOk →
      chain'.complexDecode = chain.complexDecode →
      chain'.toChecksum = chain.toChecksum →
      ∀ i (h : i < calls.length), isFragile calls[i] = false →
        (batch_calls chain' abi calls)[i]? = (batch_calls chain abi calls)[i]?) := by
  refine ⟨?_, ?_, ?_⟩
  · intro hagg i h hf
    rw [batch_calls_getElem? chain abi calls i h]
    have hrok : reliableOk chain abi calls = false := by
      unfold reliableOk; rw [hagg]; rfl
    simp [callResult, hf, hrok]
  · intro i h hf hrev
    rw [batch_calls_getElem? chain abi calls i h]
    simp [callResult, hf, hrev]
  · intro chain' hraw hagg henc hcplx hchk i h hf
    rw [batch_calls_getElem? chain' abi calls i h,
      batch_calls_getElem? chain abi calls i h]
    have hrok : reliableOk chain' abi calls = reliableOk chain abi calls := by
      unfold reliableOk encodeOk
      rw [hagg, henc]
    have hdec : decodeRaw chain' abi calls[i] (chain'.raw calls[i])
        = decodeRaw chain abi calls[i] (chain.raw calls[i]) := by
      unfold decodeRaw
      rw [hraw, hchk, hcplx]
    simp [callResult, hf, hrok, hdec]

/-- Witness for C2 on concrete chains: a dead aggregator nulls the reliable
position 0, a reverting fragile call nulls position 1, and making all fragile
calls revert leaves reliable position 2 unchanged. -/
theorem C2_batch_calls_failure_isolation_witness :
    (batch_calls downChain gaugeAbi testCalls)[0]? = some none ∧
    (batch_calls revertChain gaugeAbi testCalls)[1]? = some none ∧
    (batch_calls revertChain gaugeAbi testCalls)[2]? =
      (batch_calls testChain gaugeAbi testCalls)[2]? :=
  ⟨(C2_batch_calls_failure_isolation downChain gaugeAbi testCalls).1 rfl 0
      (by decide) (by decide),
   (C2_batch_calls_failure_isolation revertChain gaugeAbi testCalls).2.1 1
      (by decide) (by decide) (by decide),
   (C2_batch_calls_failure_isolation testChain gaugeAbi testCalls).2.2 revertChain
      rfl rfl rfl rfl rfl 2 (by decide) (by decide)⟩

/-! ## C5: the address decoder selects the wrong bytes -/

/-- A standard 32-byte ABI-encoded address result: 12 zero bytes of padding
followed by the 20 address bytes `0x0100…00`. -/
def addrResult32 : List Nat :=
  List.replicate 12 0 ++ (1 :: List.replicate 19 0)

/-- The `factory` call (declared output type `address` in GAUGE_ABI). -/
def factoryCallTest : Call := ⟨"0xgauge", "factory", []⟩

/-- C5 (code bug): the source decodes an address result with
`result.ljust(40, b'\0')[-20:]` (right-padding to 40 *bytes*), so for the
standard 32-byte result it selects the last 12 address bytes followed by 8
padding zeros instead of the address itself.  Here the encoded address
`0x0100…00` decodes to the zero address: the selected slice differs from the
low-order 20 bytes of the left-zero-padded-to-32 result that the claim (and
the source's own comment "Address is the last 20 bytes of the result")
prescribe. -/
theorem C5_address_decode_bug :
    addressSlice addrResult32 = List.replicate 20 0 ∧
    specAddressSlice addrResult32 = 1 :: List.replicate 19 0 ∧
    addressSlice addrResult32 ≠ specAddressSlice addrResult32 ∧
    decodeRaw testChain gaugeAbi factoryCallTest addrResult32 =
      some (.addr (hex0x (List.replicate 20 0))) := by decide

/-! ## C8: uint256 decoding -/

/-- C8 counterexample: a non-empty result shorter than 32 bytes does NOT
decode to null — the one-byte result `0x07` decodes to the integer 7. -/
theorem C8_short_uint_not_null :
    decodeRaw testChain gaugeAbi ⟨"0xgauge", "totalSupply", []⟩ [7]
      = some (.int 7) ∧ ([7] : List Nat).length < 32 := by decide

/-- C8 (amended): uint256 decoding is a total function (it never raises past
the decode layer): an empty result decodes to null, and every non-empty
result — of any length, including shorter than 32 bytes — decodes to the
big-endian unsigned integer of the full byte string. -/
theorem C8_uint256_decode_total (chain : Chain) (abi : List AbiEntry) (c : Call)
    (e : AbiEntry) (bs : List Nat) (hfind : lookupAbi abi c.fn = some e)
    (hout : e.outputs.head? = some "uint256") :
    decodeRaw chain abi c bs =
      if bs.isEmpty then none else some (.int (beNat bs)) := by
  unfold decodeRaw
  rw [hfind]
  by_cases hb : bs.isEmpty <;> simp [hb, hout]

/-- Witness for C8 at a concrete two-byte result. -/
theorem C8_uint256_decode_total_witness :
    decodeRaw testChain gaugeAbi ⟨"0xgauge", "totalSupply", []⟩ [1, 0] =
      if ([1, 0] : List Nat).isEmpty then none
      else some (.int (beNat [1, 0])) :=
  C8_uint256_decode_total testChain gaugeAbi ⟨"0xgauge", "totalSupply", []⟩
    ⟨"totalSupply", ["uint256"]⟩ [1, 0] (by decide) (by decide)

/-! ## Boost calculator (src/services/boost.py, src/services/constants.py) -/

/-- `MAX_BOOST = 2.5`, constants.py line 14 (exact in binary floating point,
modelled as the exact rational). -/
def MAX_BOOST : ℚ := 5 / 2

/-- `PER_MAX_BOOST = 1.0 / MAX_BOOST`, constants.py line 15 (the float value
is rounded; every property proved below survives the clamp regardless). -/
def PER_MAX_BOOST : ℚ := 1 / MAX_BOOST

/-- One per-wallet result of `get_boosts_batch`: `gauge_balance = none` models
the failure dictionary `{"boost": None, "pct_of_total_supply": 0}`, which has
no `gauge_balance` key. -/
structure BoostEntry where
  boost : Option ℚ
  pct_of_total_supply : ℚ
  gauge_balance : Option Nat
  deriving DecidableEq, Repr

/-- The failure entry of boost.py lines 103-106 (and 128). -/
def failEntry : BoostEntry := ⟨none, 0, none⟩

/-- Numeric content of a decoded result.  With GAUGE_ABI the three balance
functions are declared `uint256`, so a non-null decode is always `.int`
(`gauge_uint_decode_shape` below); Python uses the decoded objects directly
as integers. -/
def valToNat : Option Value → Option Nat
  | some (.int n) => some n
  | _ => none

/-- Per-wallet entry computation, boost.py lines 98-122: the `None`/zero
total-supply safety check, the supply percentage, the zero-balance boost
floor, and the clamped boost ratio `min(max(w/(PER_MAX_BOOST*b), 1.0),
MAX_BOOST)`. -/
def mkEntry (ts wb gb : Option Value) : BoostEntry :=
  match valToNat wb, valToNat gb, valToNat ts with
  | some w, some b, some t =>
    if t = 0 then failEntry
    else
      let pct : ℚ := ((b : ℚ) / (t : ℚ)) * 100
      if b = 0 then ⟨some 1, pct, some b⟩
      else ⟨some (min (max ((w : ℚ) / (PER_MAX_BOOST * (b : ℚ))) 1) MAX_BOOST),
            pct, some b⟩
  | _, _, _ => failEntry

def tsCall (g : String) : Call := ⟨g, "totalSupply", []⟩

def wbCall (g w : String) : Call := ⟨g, "working_balances", [w]⟩

def gbCall (g w : String) : Call := ⟨g, "balanceOf", [w]⟩

/-- The two calls appended per wallet in the loop of boost.py lines 76-83. -/
def walletCalls (g : String) : List String → List Call
  | [] => []
  | w :: ws => wbCall g w :: gbCall g w :: walletCalls g ws

/-- The full batch: one `totalSupply` call first, then the per-wallet pairs
(boost.py lines 70-83). -/
def boostCalls (g : String) (norm : List String) : List Call :=
  tsCall g :: walletCalls g norm

/-- Python dict assignment `d[k] = v`: replace an existing binding, else
append the new one. -/
def dictSet (d : List (String × BoostEntry)) (k : String) (v : BoostEntry) :
    List (String × BoostEntry) :=
  if d.any (fun p => p.1 == k) then
    d.map (fun p => if p.1 == k then (k, v) else p)
  else d ++ [(k, v)]

/-- Python dict lookup `d.get(k)`. -/
def dictGet? (d : List (String × BoostEntry)) (k : String) : Option BoostEntry :=
  (d.find? (fun p => p.1 == k)).map Prod.snd

/-- `BoostService.get_boosts_batch`, boost.py lines 54-128: normalise the
addresses, build the batch, execute it once, then build the result dict from
`results[0]` (total supply) and positions `1 + i*2` / `2 + i*2` per wallet.
(The positional accesses use `Option.getD` where Python indexes directly; the
indices are always in range, see `get_boosts_batch_spec`.) -/
def get_boosts_batch (chain : Chain) (wallets : List String) (g0 : String) :
    List (String × BoostEntry) :=
  let g := chain.toChecksum g0
  let norm := wallets.map chain.toChecksum
  let results := batch_calls chain gaugeAbi (boostCalls g norm)
  let ts := results.headD none
  norm.enum.foldl
    (fun d iw =>
      dictSet d iw.2
        (mkEntry ts ((results[1 + iw.1 * 2]?).getD none)
          ((results[2 + iw.1 * 2]?).getD none)))
    []

/-- Whether the single aggregate submission of a boost batch succeeds. -/
def boostOk (chain : Chain) (wallets : List String) (g0 : String) : Bool :=
  reliableOk chain gaugeAbi
    (boostCalls (chain.toChecksum g0) (wallets.map chain.toChecksum))

/-- The decoded total-supply result a boost batch sees. -/
def boostTs (chain : Chain) (wallets : List String) (g0 : String) : Option Value :=
  callResult chain gaugeAbi (boostOk chain wallets g0)
    (tsCall (chain.toChecksum g0))

/-- The decoded working-balance result for one (normalised) wallet. -/
def boostWb (chain : Chain) (wallets : List String) (g0 : String) (w : String) :
    Option Value :=
  callResult chain gaugeAbi (boostOk chain wallets g0)
    (wbCall (chain.toChecksum g0) w)

/-- The decoded raw gauge-balance result for one (normalised) wallet. -/
def boostGb (chain : Chain) (wallets : List String) (g0 : String) (w : String) :
    Option Value :=
  callResult chain gaugeAbi (boostOk chain wallets g0)
    (gbCall (chain.toChecksum g0) w)

/-- The entry computed for one (normalised) wallet: a function of only the
shared total supply and the wallet's own two decoded balances. -/
def boostEntryFor (chain : Chain) (wallets : List String) (g0 : String)
    (w : String) : BoostEntry :=
  mkEntry (boostTs chain wallets g0) (boostWb chain wallets g0 w)
    (boostGb chain wallets g0 w)

/-! ## Characterisation of get_boosts_batch -/

theorem walletCalls_length (g : String) (ws : List String) :
    (walletCalls g ws).length = 2 * ws.length := by
  induction ws with
  | nil => rfl
  | cons w ws ih =>
    simp only [walletCalls, List.length_cons, ih, List.length_cons]
    ring

theorem walletCalls_getElem?_even (g : String) (ws : List String) (i : Nat)
    (h : i < ws.length) :
    (walletCalls g ws)[i * 2]? = some (wbCall g ws[i]) := by
  induction ws generalizing i with
  | nil => simp at h
  | cons w ws ih =>
    cases i with
    | zero => rfl
    | succ j =>
      have hj : j < ws.length := Nat.lt_of_succ_lt_succ h
      have h2 : (j + 1) * 2 = j * 2 + 1 + 1 := by ring
      rw [h2]
      simpa [walletCalls] using ih j hj

theorem walletCalls_getElem?_odd (g : String) (ws : List String) (i : Nat)
    (h : i < ws.length) :
    (walletCalls g ws)[i * 2 + 1]? = some (gbCall g ws[i]) := by
  induction ws generalizing i with
  | nil => simp at h
  | cons w ws ih =>
    cases i with
    | zero => simp [walletCalls]
    | succ j =>
      have hj : j < ws.length := Nat.lt_of_succ_lt_succ h
      have h2 : (j + 1) * 2 + 1 = j * 2 + 1 + 1 + 1 := by ring
      rw [h2]
      simpa [walletCalls] using ih j hj

theorem boostCalls_length (g : String) (ws : List String) :
    (boostCalls g ws).length = 1 + 2 * ws.length := by
  simp [boostCalls, walletCalls_length, Nat.add_comm]

/-- Folding Python dict insertion over fresh, pairwise-distinct keys appends
one binding per step. -/
theorem foldl_dictSet_fresh (f : Nat → String → BoostEntry) :
    ∀ (l : List (Nat × String)) (init : List (String × BoostEntry)),
      (l.map Prod.snd).Nodup →
      (∀ p ∈ l, ∀ q ∈ init, q.1 ≠ p.2) →
      l.foldl (fun d iw => dictSet d iw.2 (f iw.1 iw.2)) init
        = init ++ l.map (fun iw => (iw.2, f iw.1 iw.2)) := by
  intro l
  induction l with
  | nil => intro init _ _; simp
  | cons p l ih =>
    intro init hnd hfresh
    simp only [List.map_cons, List.nodup_cons] at hnd
    have hset : dictSet init p.2 (f p.1 p.2) = init ++ [(p.2, f p.1 p.2)] := by
      unfold dictSet
      have hany : init.any (fun q => q.1 == p.2) = false := by
        rw [List.any_eq_false]
        intro q hq
        simpa using hfresh p (List.mem_cons_self _ _) q hq
      rw [hany]
      simp
    have hfresh' : ∀ r ∈ l, ∀ q ∈ init ++ [(p.2, f p.1 p.2)], q.1 ≠ r.2 := by
      intro r hr q hq
      rcases List.mem_append.1 hq with hq | hq
      · exact hfresh r (List.mem_cons_of_mem _ hr) q hq
      · have hq2 : q = (p.2, f p.1 p.2) := by simpa using hq
        rw [hq2]
        show p.2 ≠ r.2
        intro heq
        apply hnd.1
        rw [heq]
        exact List.mem_map_of_mem Prod.snd hr
    rw [List.foldl_cons, hset, ih (init ++ [(p.2, f p.1 p.2)]) hnd.2 hfresh']
    simp

/-- `find?` over a list of pairs built from the keys themselves returns the
binding of the first matching key. -/
theorem find?_map_pair (G : String → BoostEntry) (norm : List String)
    (w : String) (hw : w ∈ norm) :
    (norm.map (fun x => (x, G x))).find? (fun p => p.1 == w) = some (w, G w) := by
  induction norm with
  | nil => cases hw
  | cons x xs ih =>
    by_cases hx : x = w
    · subst hx
      simp [List.find?_cons_of_pos]
    · have hw' : w ∈ xs := by
        rcases List.mem_cons.1 hw with h | h
        · exact absurd h.symm hx
        · exact h
      rw [List.map_cons, List.find?_cons_of_neg _ (by simpa using hx)]
      exact ih hw'

/-- `results[0]` of a boost batch is the decoded total supply. -/
theorem boost_results_head (chain : Chain) (wallets : List String) (g0 : String) :
    (batch_calls chain gaugeAbi (boostCalls (chain.toChecksum g0)
        (wallets.map chain.toChecksum))).headD none
      = boostTs chain wallets g0 := by
  have h0 : (0 : Nat) < (boostCalls (chain.toChecksum g0)
      (wallets.map chain.toChecksum)).length := by
    rw [boostCalls_length]; omega
  have hg := batch_calls_getElem? chain gaugeAbi
    (boostCalls (chain.toChecksum g0) (wallets.map chain.toChecksum)) 0 h0
  have hhead : ∀ (l : List (Option Value)), l.headD none = (l[0]?).getD none := by
    intro l; cases l <;> simp
  rw [hhead, hg]
  rfl

/-- `results[1 + i*2]` of a boost batch is wallet `i`'s decoded working
balance. -/
theorem boost_results_wb (chain : Chain) (wallets : List String) (g0 : String)
    (i : Nat) (hi : i < (wallets.map chain.toChecksum).length) :
    ((batch_calls chain gaugeAbi (boostCalls (chain.toChecksum g0)
        (wallets.map chain.toChecksum)))[1 + i * 2]?).getD none
      = boostWb chain wallets g0 (wallets.map chain.toChecksum)[i] := by
  have hidx : 1 + i * 2 < (boostCalls (chain.toChecksum g0)
      (wallets.map chain.toChecksum)).length := by
    rw [boostCalls_length]; omega
  rw [batch_calls_getElem? chain gaugeAbi _ _ hidx]
  have hq : (boostCalls (chain.toChecksum g0)
      (wallets.map chain.toChecksum))[1 + i * 2]?
      = some (wbCall (chain.toChecksum g0) (wallets.map chain.toChecksum)[i]) := by
    show (tsCall (chain.toChecksum g0) :: walletCalls (chain.toChecksum g0)
      (wallets.map chain.toChecksum))[1 + i * 2]? = _
    rw [Nat.add_comm 1 (i * 2), List.getElem?_cons_succ]
    exact walletCalls_getElem?_even _ _ i hi
  rw [List.getElem?_eq_getElem hidx] at hq
  rw [Option.some.inj hq]
  rfl

/-- `results[2 + i*2]` of a boost batch is wallet `i`'s decoded raw gauge
balance. -/
theorem boost_results_gb (chain : Chain) (wallets : List String) (g0 : String)
    (i : Nat) (hi : i < (wallets.map chain.toChecksum).length) :
    ((batch_calls chain gaugeAbi (boostCalls (chain.toChecksum g0)
        (wallets.map chain.toChecksum)))[2 + i * 2]?).getD none
      = boostGb chain wallets g0 (wallets.map chain.toChecksum)[i] := by
  have hidx : 2 + i * 2 < (boostCalls (chain.toChecksum g0)
      (wallets.map chain.toChecksum)).length := by
    rw [boostCalls_length]; omega
  rw [batch_calls_getElem? chain gaugeAbi _ _ hidx]
  have hq : (boostCalls (chain.toChecksum g0)
      (wallets.map chain.toChecksum))[2 + i * 2]?
      = some (gbCall (chain.toChecksum g0) (wallets.map chain.toChecksum)[i]) := by
    show (tsCall (chain.toChecksum g0) :: walletCalls (chain.toChecksum g0)
      (wallets.map chain.toChecksum))[2 + i * 2]? = _
    rw [show 2 + i * 2 = i * 2 + 1 + 1 by omega, List.getElem?_cons_succ]
    exact walletCalls_getElem?_odd _ _ i hi
  rw [List.getElem?_eq_getElem hidx] at hq
  rw [Option.some.inj hq]
  rfl

/-- The dict built by `get_boosts_batch` is, for pairwise-distinct normalised
wallets, exactly one binding per wallet, in order, each carrying the entry
computed from that wallet's own balances and the shared total supply. -/
theorem get_boosts_batch_spec (chain : Chain) (wallets : List String)
    (g0 : String) (hn : (wallets.map chain.toChecksum).Nodup) :
    get_boosts_batch chain wallets g0 =
      (wallets.map chain.toChecksum).map
        (fun w => (w, boostEntryFor chain wallets g0 w)) := by
  simp only [get_boosts_batch]
  have hfold := foldl_dictSet_fresh
    (fun i _ => mkEntry
      ((batch_calls chain gaugeAbi (boostCalls (chain.toChecksum g0)
          (wallets.map chain.toChecksum))).headD none)
      (((batch_calls chain gaugeAbi (boostCalls (chain.toChecksum g0)
          (wallets.map chain.toChecksum)))[1 + i * 2]?).getD none)
      (((batch_calls chain gaugeAbi (boostCalls (chain.toChecksum g0)
          (wallets.map chain.toChecksum)))[2 + i * 2]?).getD none))
    (wallets.map chain.toChecksum).enum []
    (by rw [List.enum_map_snd]; exact hn)
    (by intro p _ q hq; cases hq)
  simp only [List.nil_append] at hfold
  rw [hfold]
  have hmap : ∀ iw ∈ (wallets.map chain.toChecksum).enum,
      ((fun (iw : Nat × String) => ((iw.2 : String), mkEntry
        ((batch_calls chain gaugeAbi (boostCalls (chain.toChecksum g0)
            (wallets.map chain.toChecksum))).headD none)
        (((batch_calls chain gaugeAbi (boostCalls (chain.toChecksum g0)
            (wallets.map chain.toChecksum)))[1 + iw.1 * 2]?).getD none)
        (((batch_calls chain gaugeAbi (boostCalls (chain.toChecksum g0)
            (wallets.map chain.toChecksum)))[2 + iw.1 * 2]?).getD none))) iw)
      = (fun (iw : Nat × String) =>
          (iw.2, boostEntryFor chain wallets g0 iw.2)) iw := by
    intro iw hiw
    have hget : (wallets.map chain.toChecksum)[iw.1]? = some iw.2 :=
      List.mk_mem_enum_iff_getElem?.1 (by
        have hiw2 : iw = (iw.1, iw.2) := rfl
        rw [← hiw2]; exact hiw)
    obtain ⟨hilt, hval⟩ := List.getElem?_eq_some.1 hget
    simp only
    rw [boost_results_head, boost_results_wb chain wallets g0 iw.1 hilt,
      boost_results_gb chain wallets g0 iw.1 hilt, hval]
    rfl
  rw [List.map_congr_left hmap]
  have hmm : (wallets.map chain.toChecksum).enum.map
      (fun (iw : Nat × String) => (iw.2, boostEntryFor chain wallets g0 iw.2))
      = ((wallets.map chain.toChecksum).enum.map Prod.snd).map
          (fun w => (w, boostEntryFor chain wallets g0 w)) := by
    rw [List.map_map]
    rfl
  rw [hmm, List.enum_map_snd]

/-- A reliable call sees `none` when the whole reliable batch failed. -/
theorem callResult_false_of_not_fragile (chain : Chain) (c : Call)
    (hc : isFragile c = false) : callResult chain gaugeAbi false c = none := by
  unfold callResult
  rw [hc]
  simp

theorem isFragile_tsCall (g : String) : isFragile (tsCall g) = false := rfl

theorem isFragile_wbCall (g w : String) : isFragile (wbCall g w) = false := rfl

theorem isFragile_gbCall (g w : String) : isFragile (gbCall g w) = false := rfl

/-- With all three values decoded and a positive total supply, the per-wallet
entry carries the supply percentage and either the boost floor 1.0 (zero raw
balance) or the clamped boost ratio. -/
theorem mkEntry_eq (t wk b : Nat) (ts wb gb : Option Value)
    (hts : valToNat ts = some t) (hwb : valToNat wb = some wk)
    (hgb : valToNat gb = some b) (hpos : 0 < t) :
    mkEntry ts wb gb =
      if b = 0 then ⟨some 1, ((b : ℚ) / (t : ℚ)) * 100, some b⟩
      else ⟨some (min (max ((wk : ℚ) / (PER_MAX_BOOST * (b : ℚ))) 1) MAX_BOOST),
            ((b : ℚ) / (t : ℚ)) * 100, some b⟩ := by
  unfold mkEntry
  rw [hts, hwb, hgb]
  simp only
  rw [if_neg (by omega : ¬ t = 0)]

/-- The binding of each input wallet in the output dict. -/
theorem dictGet?_get_boosts (chain : Chain) (wallets : List String)
    (g0 : String) (hn : (wallets.map chain.toChecksum).Nodup) (w : String)
    (hw : w ∈ wallets) :
    dictGet? (get_boosts_batch chain wallets g0) (chain.toChecksum w)
      = some (boostEntryFor chain wallets g0 (chain.toChecksum w)) := by
  rw [get_boosts_batch_spec chain wallets g0 hn]
  unfold dictGet?
  rw [find?_map_pair _ _ _ (List.mem_map_of_mem chain.toChecksum hw)]
  rfl

/-! ## C6 and C4: boost calculator claims -/

/-- C6: for every input wallet list (with distinct normalised addresses, as
checksumming is injective on valid addresses) and gauge address,
`get_boosts_batch` returns a map with exactly one entry per input wallet;
each wallet's entry is a function of only its own two balances and the shared
total supply (`boostEntryFor`); and when the aggregate submission fails
entirely, every entry is the failure entry `{boost: none, pct: 0}`. -/
theorem C6_one_entry_per_wallet (chain : Chain) (wallets : List String)
    (g0 : String) (hn : (wallets.map chain.toChecksum).Nodup) :
    (get_boosts_batch chain wallets g0).length = wallets.length ∧
    (∀ w ∈ wallets,
      dictGet? (get_boosts_batch chain wallets g0) (chain.toChecksum w)
        = some (boostEntryFor chain wallets g0 (chain.toChecksum w))) ∧
    (chain.aggOk = false →
      ∀ w ∈ wallets,
        dictGet? (get_boosts_batch chain wallets g0) (chain.toChecksum w)
          = some failEntry) := by
  refine ⟨?_, fun w hw => dictGet?_get_boosts chain wallets g0 hn w hw, ?_⟩
  · rw [get_boosts_batch_spec chain wallets g0 hn]
    simp
  · intro hagg w hw
    have hok : boostOk chain wallets g0 = false := by
      unfold boostOk reliableOk
      rw [hagg]
      rfl
    have hE : boostEntryFor chain wallets g0 (chain.toChecksum w) = failEntry := by
      unfold boostEntryFor boostTs boostWb boostGb
      rw [hok, callResult_false_of_not_fragile chain _ (isFragile_tsCall _),
        callResult_false_of_not_fragile chain _ (isFragile_wbCall _ _),
        callResult_false_of_not_fragile chain _ (isFragile_gbCall _ _)]
      rfl
    rw [dictGet?_get_boosts chain wallets g0 hn w hw, hE]

/-- Witness for C6 on two concrete wallets, against the working oracle and
the dead-aggregator oracle. -/
theorem C6_one_entry_per_wallet_witness :
    (get_boosts_batch testChain ["0xaaa", "0xbbb"] "0xgauge").length
      = (["0xaaa", "0xbbb"] : List String).length ∧
    dictGet? (get_boosts_batch testChain ["0xaaa", "0xbbb"] "0xgauge")
        (testChain.toChecksum "0xaaa")
      = some (boostEntryFor testChain ["0xaaa", "0xbbb"] "0xgauge"
          (testChain.toChecksum "0xaaa")) ∧
    dictGet? (get_boosts_batch downChain ["0xaaa", "0xbbb"] "0xgauge")
        (downChain.toChecksum "0xbbb")
      = some failEntry :=
  ⟨(C6_one_entry_per_wallet testChain ["0xaaa", "0xbbb"] "0xgauge" (by decide)).1,
   (C6_one_entry_per_wallet testChain ["0xaaa", "0xbbb"] "0xgauge" (by decide)).2.1
     "0xaaa" (by decide),
   (C6_one_entry_per_wallet downChain ["0xaaa", "0xbbb"] "0xgauge" (by decide)).2.2
     rfl "0xbbb" (by decide)⟩

/-- C4: for every wallet whose working balance, raw balance and total supply
all decoded non-null with total supply strictly positive, the entry's boost
lies within `[1.0, MAX_BOOST]`; a wallet with zero raw balance gets boost
exactly 1.0 (regardless of the working balance, which is unconstrained here)
and supply percentage 0. -/
theorem C4_boost_bounds (chain : Chain) (wallets : List String) (g0 : String)
    (hn : (wallets.map chain.toChecksum).Nodup) (w : String) (hw : w ∈ wallets)
    (t wk b : Nat)
    (hts : valToNat (boostTs chain wallets g0) = some t)
    (hwb : valToNat (boostWb chain wallets g0 (chain.toChecksum w)) = some wk)
    (hgb : valToNat (boostGb chain wallets g0 (chain.toChecksum w)) = some b)
    (hpos : 0 < t) :
    ∃ q : ℚ,
      dictGet? (get_boosts_batch chain wallets g0) (chain.toChecksum w)
        = some ⟨some q, ((b : ℚ) / (t : ℚ)) * 100, some b⟩ ∧
      1 ≤ q ∧ q ≤ MAX_BOOST ∧
      (b = 0 → q = 1 ∧ ((b : ℚ) / (t : ℚ)) * 100 = 0) := by
  have hfind := dictGet?_get_boosts chain wallets g0 hn w hw
  rw [boostEntryFor, mkEntry_eq t wk b _ _ _ hts hwb hgb hpos] at hfind
  by_cases hb : b = 0
  · rw [if_pos hb] at hfind
    refine ⟨1, hfind, le_refl 1, by norm_num [MAX_BOOST], fun _ => ⟨rfl, ?_⟩⟩
    rw [hb]
    norm_num
  · rw [if_neg hb] at hfind
    refine ⟨_, hfind, ?_, min_le_right _ _, fun hb0 => absurd hb0 hb⟩
    exact le_min (le_max_right _ _) (by norm_num [MAX_BOOST])

/-- Witness for C4: total supply 100, working balance 40, raw balance 20 on
the concrete oracle (boost 40/(0.4·20) = 5, clamped to MAX_BOOST). -/
theorem C4_boost_bounds_witness :
    ∃ q : ℚ,
      dictGet? (get_boosts_batch testChain ["0xaaa"] "0xgauge")
          (testChain.toChecksum "0xaaa")
        = some ⟨some q, (((20 : Nat) : ℚ) / ((100 : Nat) : ℚ)) * 100, some 20⟩ ∧
      1 ≤ q ∧ q ≤ MAX_BOOST ∧
      (20 = 0 → q = 1 ∧ (((20 : Nat) : ℚ) / ((100 : Nat) : ℚ)) * 100 = 0) :=
  C4_boost_bounds testChain ["0xaaa"] "0xgauge" (by decide) "0xaaa" (by decide)
    100 40 20 (by decide) (by decide) (by decide) (by decide)

/-! ## Freshness cache (src/services/gauge_info.py) -/

/-- `CACHE_EXPIRATION_SECONDS = 100`, gauge_info.py line 25.  Wall-clock
times are modelled as exact rationals. -/
def CACHE_EXPIRATION_SECONDS : ℚ := 100

/-- The gauge metadata payload: an opaque JSON dict, modelled as an
association list so that Python truthiness (`{}` is falsy) is expressible. -/
def Payload := List (String × String)

instance : DecidableEq Payload := by
  unfold Payload
  infer_instance

/-- The mutable cache state of `GaugeInfoService` (lines 40-43). -/
structure CacheState where
  cache : Option Payload
  ts : ℚ
  hits : Nat
  misses : Nat

/-- Outcome of the external-API request of lines 182-184: a parsed body with
its `success` flag and `data` field, a timeout, or any other raised error
(connection error, non-2xx status, JSON parse failure) — the two failure
branches at lines 202-218 perform the same state logic. -/
inductive ApiResult where
  | ok (success : Bool) (data : Payload)
  | timeout
  | error

/-- Environment of one fetch attempt: the current wall-clock time, the result
of `_get_local_curve_data` (`none` models both a missing/unreadable file and
a parse failure), and the remote API outcome. -/
structure FetchEnv where
  now : ℚ
  localData : Option Payload
  api : ApiResult

/-- Python truthiness of the local-file result at line 157 (`if local_data:`):
`None` and the empty dict are falsy. -/
def truthy : Option Payload → Bool
  | none => false
  | some p => !p.isEmpty

/-- `_is_cache_valid`, lines 45-60. -/
def is_cache_valid (s : CacheState) (now : ℚ) : Bool :=
  s.cache.isSome && decide (now - s.ts < CACHE_EXPIRATION_SECONDS)

/-- Every API outcome other than a parsed body with `success = true`. -/
def apiFailed : ApiResult → Bool
  | .ok true _ => false
  | _ => true

/-- `_fetch_all_gauges`, lines 135-218: serve a valid cache, else count a
miss and try the local file, else the remote API, else fall back to the stale
cache if one exists, else return the empty dict. -/
def fetch_all_gauges (s : CacheState) (env : FetchEnv) : Payload × CacheState :=
  if is_cache_valid s env.now then
    (s.cache.getD [], { s with hits := s.hits + 1 })
  else
    let s1 := { s with misses := s.misses + 1 }
    if truthy env.localData then
      let p := env.localData.getD []
      (p, { s1 with cache := some p, ts := env.now })
    else
      match env.api with
      | .ok true d => (d, { s1 with cache := some d, ts := env.now })
      | .ok false _ =>
        match s1.cache with
        | some p => (p, s1)
        | none => ([], s1)
      | .timeout =>
        match s1.cache with
        | some p => (p, s1)
        | none => ([], s1)
      | .error =>
        match s1.cache with
        | some p => (p, s1)
        | none => ([], s1)

/-- Refresh report of `force_refresh_cache` (wall-clock `elapsed_seconds` and
the derived `cache_stats` readout omitted). -/
structure RefreshResult where
  success : Bool
  source : String
  gauge_count : Nat

/-- `force_refresh_cache`, lines 258-298: reset the cache to `None` and the
timestamp to 0 first, then try the local file directly, then fall back to
`_fetch_all_gauges` (which retries the local file and the API against the
now-empty cache). -/
def force_refresh_cache (s : CacheState) (env : FetchEnv) :
    RefreshResult × CacheState :=
  let s0 : CacheState := { s with cache := none, ts := 0 }
  if truthy env.localData then
    let p := env.localData.getD []
    (⟨true, "local_file", p.length⟩, { s0 with cache := some p, ts := env.now })
  else
    let r := fetch_all_gauges s0 env
    (⟨decide (0 < r.1.length), "external_api", r.1.length⟩, r.2)

/-! ## C3 and C10: cache fallback and forced-refresh discard -/

/-- C3: if a previous payload exists, the cache is expired, and both the
local file and the remote API fail, `get()` returns the previous payload
unchanged (never raises, never returns empty), leaves the cached payload in
place and does not touch the timestamp, so the next call retries the
sources. -/
theorem C3_stale_fallback (s : CacheState) (env : FetchEnv) (p : Payload)
    (hc : s.cache = some p)
    (hexp : CACHE_EXPIRATION_SECONDS ≤ env.now - s.ts)
    (hloc : truthy env.localData = false)
    (hapi : apiFailed env.api = true) :
    (fetch_all_gauges s env).1 = p ∧
    (fetch_all_gauges s env).2.cache = some p ∧
    (fetch_all_gauges s env).2.ts = s.ts := by
  have hvalid : is_cache_valid s env.now = false := by
    unfold is_cache_valid
    have : ¬ (env.now - s.ts < CACHE_EXPIRATION_SECONDS) := not_lt.2 hexp
    simp [this]
  unfold fetch_all_gauges
  rw [hvalid, hloc]
  cases henv : env.api with
  | ok success d =>
    cases success with
    | true => rw [henv] at hapi; simp [apiFailed] at hapi
    | false => simp [hc]
  | timeout => simp [hc]
  | error => simp [hc]

/-- Witness for C3: a concrete expired cache with both sources down. -/
theorem C3_stale_fallback_witness :
    (fetch_all_gauges ⟨some [("0xg", "meta")], 0, 3, 1⟩
        ⟨200, none, .timeout⟩).1 = [("0xg", "meta")] ∧
    (fetch_all_gauges ⟨some [("0xg", "meta")], 0, 3, 1⟩
        ⟨200, none, .timeout⟩).2.cache = some [("0xg", "meta")] ∧
    (fetch_all_gauges ⟨some [("0xg", "meta")], 0, 3, 1⟩
        ⟨200, none, .timeout⟩).2.ts = (⟨some [("0xg", "meta")], 0, 3, 1⟩ : CacheState).ts :=
  C3_stale_fallback ⟨some [("0xg", "meta")], 0, 3, 1⟩ ⟨200, none, .timeout⟩
    [("0xg", "meta")] rfl (by norm_num [CACHE_EXPIRATION_SECONDS]) rfl rfl

/-- C10: `force_refresh_cache` clears the payload and timestamp before
fetching, so when the local file and the remote API both fail the previously
cached payload is permanently discarded: the refresh reports failure with the
cache left empty (timestamp 0), and a subsequent `get()` whose sources still
fail returns the empty "no data" result instead of the old payload. -/
theorem C10_force_refresh_discards (s : CacheState) (env env' : FetchEnv)
    (p : Payload) (hc : s.cache = some p)
    (hloc : truthy env.localData = false)
    (hapi : apiFailed env.api = true)
    (hloc' : truthy env'.localData = false)
    (hapi' : apiFailed env'.api = true) :
    (force_refresh_cache s env).1.success = false ∧
    (force_refresh_cache s env).2.cache = none ∧
    (force_refresh_cache s env).2.ts = 0 ∧
    (fetch_all_gauges (force_refresh_cache s env).2 env').1 = [] := by
  have hstep : ∀ (s0 : CacheState) (e : FetchEnv), s0.cache = none →
      truthy e.localData = false → apiFailed e.api = true →
      (fetch_all_gauges s0 e).1 = [] ∧
      (fetch_all_gauges s0 e).2.cache = none ∧
      (fetch_all_gauges s0 e).2.ts = s0.ts := by
    intro s0 e h0 hl ha
    have hvalid : is_cache_valid s0 e.now = false := by
      unfold is_cache_valid
      rw [h0]
      rfl
    unfold fetch_all_gauges
    rw [hvalid, hl]
    cases henv : e.api with
    | ok success d =>
      cases success with
      | true => rw [henv] at ha; simp [apiFailed] at ha
      | false => simp [h0]
    | timeout => simp [h0]
    | error => simp [h0]
  unfold force_refresh_cache
  rw [hloc]
  obtain ⟨h1, h2, h3⟩ := hstep { s with cache := none, ts := 0 } env rfl hloc hapi
  refine ⟨?_, ?_, ?_, ?_⟩
  · simp only [h1]
    rfl
  · simpa using h2
  · simpa using h3
  · simp only
    exact (hstep _ env' (by simpa using h2) hloc' hapi').1

/-- Witness for C10: a populated cache wiped by a failing forced refresh. -/
theorem C10_force_refresh_discards_witness :
    (force_refresh_cache ⟨some [("0xg", "meta")], 50, 3, 1⟩
        ⟨200, none, .error⟩).1.success = false ∧
    (force_refresh_cache ⟨some [("0xg", "meta")], 50, 3, 1⟩
        ⟨200, none, .error⟩).2.cache = none ∧
    (force_refresh_cache ⟨some [("0xg", "meta")], 50, 3, 1⟩
        ⟨200, none, .error⟩).2.ts = 0 ∧
    (fetch_all_gauges (force_refresh_cache ⟨some [("0xg", "meta")], 50, 3, 1⟩
        ⟨200, none, .error⟩).2 ⟨300, none, .timeout⟩).1 = [] :=
  C10_force_refresh_discards ⟨some [("0xg", "meta")], 50, 3, 1⟩
    ⟨200, none, .error⟩ ⟨300, none, .timeout⟩ [("0xg", "meta")] rfl rfl rfl rfl rfl

/-! ## Verification state machine (src/services/verify_gauge.py) -/

/-- A Python value as compared at verify_gauge.py line 163: `code != '0x'`
compares the bytes returned by `get_code` with a string. -/
inductive PyVal where
  | bytes (bs : List Nat)
  | str (s : String)

/-- Python 3 `==` across these types: values of different types are never
equal; same-typed values compare structurally. -/
def pyEq : PyVal → PyVal → Bool
  | .bytes a, .bytes b => a == b
  | .str a, .str b => a == b
  | _, _ => false

/-- TRUSTED_FACTORIES, verify_gauge.py lines 19-25. -/
def TRUSTED_FACTORIES : List String :=
  ["0x6A8cbed756804B16E05E741eDaBd5cB544AE21bf",
   "0xabC000d88f23Bb45525E447528DBF656A9D55bf5",
   "0xeF672bD94913CB6f1d2812a6e18c1fFdEd8eFf5c",
   "0x98EE851a00abeE0d95D08cF4CA2BdCE32aeaAF7F",
   "0x306A45a1478A000dC701A6e1f7a569afb8D9DCD6"]

/-- Oracle for the verification flow: each outbound call of
verify_gauge.py as a pure function of a fixed on-chain state.
`.error` models a raised exception (revert / node error). -/
structure VChain where
  /-- `web3.eth.get_code(address)` (returns bytes in web3 ≥ 4). -/
  getCode : String → Except Unit (List Nat)
  /-- `web3.is_address(address)`. -/
  isAddress : String → Bool
  /-- `web3.to_checksum_address(address)`. -/
  toChecksum : String → String
  /-- `contract.functions.factory().call()` on the candidate. -/
  factoryCall : String → Except Unit String
  /-- `contract.functions.lp_token().call()` on the candidate. -/
  lpTokenCall : String → Except Unit String
  /-- `factory_contract.functions.get_gauge(lp_token).call()`. -/
  getGauge : String → String → Except Unit String
  /-- `factory_contract.functions.is_valid_gauge(address).call()`. -/
  isValidGauge : String → String → Except Unit Bool

/-- `is_valid_contract`, verify_gauge.py lines 159-166: any exception gives
`False`; otherwise the bytes result is compared (with Python `!=`) against
the *strings* `'0x'` and `'0x0'`. -/
def is_valid_contract (chain : VChain) (address : String) : Bool :=
  match chain.getCode address with
  | .error _ => false
  | .ok code =>
    !pyEq (.bytes code) (.str "0x") && !pyEq (.bytes code) (.str "0x0")

/-- The verification verdict (§3 VerificationOutcome); the wall-clock
`timing` field is omitted. -/
structure VOutcome where
  is_valid : Bool
  message : String
  deriving DecidableEq, Repr

def msgNoAddress : String := "No address parameter given."

def msgInvalidAddress : String := "Invalid Ethereum address."

def msgNotContract : String := "Supplied address is not a valid contract."

def msgFactoryRevert : String :=
  "Contract call to discover factory reverted. Ensure you provide a factory deployed gauge."

def msgUntrusted : String :=
  "Factory used to deploy this is not found on trusted list."

def msgMismatch (g a : String) : String :=
  "Factory address for this pool does not match supplied address. Expected "
    ++ g ++ ", got " ++ a

def msgLpValid : String := "This is a verified factory deployed LP gauge."

def msgCallReverted : String :=
  "Contract call reverted. This likely means that the supplied address is not a valid gauge from the latest factory."

def msgNonLpValid : String := "This is a verified factory deployed gauge."

def msgReportedInvalid : String := "The factory reports this gauge as invalid."

/-- LP branch, verify_gauge.py lines 85-107: ask the factory for the gauge of
the probed LP token, compare case-insensitively. -/
def verifyFromLp (chain : VChain) (address factory lp : String) : VOutcome :=
  match chain.getGauge factory lp with
  | .error _ => ⟨false, msgCallReverted⟩
  | .ok g =>
    if g.toLower ≠ address.toLower then ⟨false, msgMismatch g address⟩
    else ⟨true, msgLpValid⟩

/-- Non-LP branch, lines 108-128: ask the factory whether the candidate is a
valid gauge. -/
def verifyFromNonLp (chain : VChain) (address factory : String) : VOutcome :=
  match chain.isValidGauge factory address with
  | .error _ => ⟨false, msgCallReverted⟩
  | .ok b => if b then ⟨true, msgNonLpValid⟩ else ⟨false, msgReportedInvalid⟩

/-- The LP probe, lines 70-82: branch choice by attempting `lp_token()`. -/
def verifyFromLpProbe (chain : VChain) (address factory : String) : VOutcome :=
  match chain.lpTokenCall address with
  | .ok lp => verifyFromLp chain address factory lp
  | .error _ => verifyFromNonLp chain address factory

/-- Factory discovery and trust check, lines 52-68. -/
def verifyFromFactory (chain : VChain) (address : String) : VOutcome :=
  match chain.factoryCall address with
  | .error _ => ⟨false, msgFactoryRevert⟩
  | .ok factory =>
    if factory ∈ TRUSTED_FACTORIES then verifyFromLpProbe chain address factory
    else ⟨false, msgUntrusted⟩

/-- Contract-existence check, lines 45-50. -/
def verifyFromContract (chain : VChain) (address : String) : VOutcome :=
  if is_valid_contract chain address then verifyFromFactory chain address
  else ⟨false, msgNotContract⟩

/-- `verify_gauge`, lines 27-135 (the request wrapper reduced to its address
parameter, as `verify_gauge_by_address` does at lines 137-157). -/
def verify_gauge (chain : VChain) (addressParam : Option String) : VOutcome :=
  match addressParam with
  | none => ⟨false, msgNoAddress⟩
  | some a0 =>
    if a0 = "" then ⟨false, msgNoAddress⟩
    else if chain.isAddress a0 then
      verifyFromContract chain (chain.toChecksum a0)
    else ⟨false, msgInvalidAddress⟩

/-- States of the verification walk (§4.3). -/
inductive VState where
  | start (param : Option String)
  | contractCheck (addr : String)
  | factoryCheck (addr : String)
  | lpProbe (addr factory : String)
  | lpBranch (addr factory lp : String)
  | nonLpBranch (addr factory : String)
  | done (o : VOutcome)

/-- One transition of the verification walk against a fixed chain oracle,
read off the control flow of verify_gauge.py lines 27-135; every guard is an
equation on the oracle, so the relation has no internal choice. -/
inductive VStep (chain : VChain) : VState → VState → Prop where
  | noAddr : VStep chain (.start none) (.done ⟨false, msgNoAddress⟩)
  | emptyAddr : VStep chain (.start (some "")) (.done ⟨false, msgNoAddress⟩)
  | badAddr (a : String) (h0 : a ≠ "") (h : chain.isAddress a = false) :
      VStep chain (.start (some a)) (.done ⟨false, msgInvalidAddress⟩)
  | goodAddr (a : String) (h0 : a ≠ "") (h : chain.isAddress a = true) :
      VStep chain (.start (some a)) (.contractCheck (chain.toChecksum a))
  | notContract (a : String) (h : is_valid_contract chain a = false) :
      VStep chain (.contractCheck a) (.done ⟨false, msgNotContract⟩)
  | isContract (a : String) (h : is_valid_contract chain a = true) :
      VStep chain (.contractCheck a) (.factoryCheck a)
  | factoryRevert (a : String) (h : chain.factoryCall a = .error ()) :
      VStep chain (.factoryCheck a) (.done ⟨false, msgFactoryRevert⟩)
  | factoryUntrusted (a f : String) (h : chain.factoryCall a = .ok f)
      (hf : f ∉ TRUSTED_FACTORIES) :
      VStep chain (.factoryCheck a) (.done ⟨false, msgUntrusted⟩)
  | factoryTrusted (a f : String) (h : chain.factoryCall a = .ok f)
      (hf : f ∈ TRUSTED_FACTORIES) :
      VStep chain (.factoryCheck a) (.lpProbe a f)
  | lpProbeYes (a f lp : String) (h : chain.lpTokenCall a = .ok lp) :
      VStep chain (.lpProbe a f) (.lpBranch a f lp)
  | lpProbeNo (a f : String) (h : chain.lpTokenCall a = .error ()) :
      VStep chain (.lpProbe a f) (.nonLpBranch a f)
  | lpRevert (a f lp : String) (h : chain.getGauge f lp = .error ()) :
      VStep chain (.lpBranch a f lp) (.done ⟨false, msgCallReverted⟩)
  | lpMismatch (a f lp g : String) (h : chain.getGauge f lp = .ok g)
      (hm : g.toLower ≠ a.toLower) :
      VStep chain (.lpBranch a f lp) (.done ⟨false, msgMismatch g a⟩)
  | lpMatch (a f lp g : String) (h : chain.getGauge f lp = .ok g)
      (hm : g.toLower = a.toLower) :
      VStep chain (.lpBranch a f lp) (.done ⟨true, msgLpValid⟩)
  | nonLpRevert (a f : String) (h : chain.isValidGauge f a = .error ()) :
      VStep chain (.nonLpBranch a f) (.done ⟨false, msgCallReverted⟩)
  | nonLpTrue (a f : String) (h : chain.isValidGauge f a = .ok true) :
      VStep chain (.nonLpBranch a f) (.done ⟨true, msgNonLpValid⟩)
  | nonLpFalse (a f : String) (h : chain.isValidGauge f a = .ok false) :
      VStep chain (.nonLpBranch a f) (.done ⟨false, msgReportedInvalid⟩)

/-- Multi-step reachability of the verification walk. -/
def VReaches (chain : VChain) : VState → VState → Prop :=
  Relation.ReflTransGen (VStep chain)

/-- The walk has no internal choice: at most one transition leaves any
state. -/
theorem vstep_deterministic (chain : VChain) {s t u : VState}
    (h1 : VStep chain s t) (h2 : VStep chain s u) : t = u := by
  cases h1 <;> cases h2 <;> simp_all

/-- No transition leaves a terminal state. -/
theorem vstep_done_terminal (chain : VChain) {o : VOutcome} {t : VState}
    (h : VStep chain (.done o) t) : False := by
  cases h

/-- Any two terminal outcomes reachable from the same state coincide. -/
theorem vreaches_done_unique (chain : VChain) {s : VState} {o₁ o₂ : VOutcome}
    (h1 : VReaches chain s (.done o₁)) (h2 : VReaches chain s (.done o₂)) :
    o₁ = o₂ := by
  revert h2
  induction h1 using Relation.ReflTransGen.head_induction_on with
  | refl =>
    intro h2
    rcases Relation.ReflTransGen.cases_head h2 with h | ⟨c, hc, _⟩
    · cases h
      rfl
    · exact absurd hc (fun hstep => vstep_done_terminal chain hstep)
  | head hstep hrest ih =>
    intro h2
    rcases Relation.ReflTransGen.cases_head h2 with h | ⟨c, hc, hcr⟩
    · rw [h] at hstep
      exact absurd hstep (fun hs => vstep_done_terminal chain hs)
    · have hbc := vstep_deterministic chain hstep hc
      rw [← hbc] at hcr
      exact ih hcr

/-- The function `verify_gauge` realises a complete run of the walk: from
`START` it reaches `DONE` with exactly the outcome the function computes. -/
theorem verify_gauge_run (chain : VChain) (p : Option String) :
    VReaches chain (.start p) (.done (verify_gauge chain p)) := by
  have runLp : ∀ a f lp, VReaches chain (.lpBranch a f lp)
      (.done (verifyFromLp chain a f lp)) := by
    intro a f lp
    unfold verifyFromLp
    cases hg : chain.getGauge f lp with
    | error e =>
      cases e
      exact Relation.ReflTransGen.single (VStep.lpRevert a f lp hg)
    | ok g =>
      show VReaches chain (VState.lpBranch a f lp)
        (.done (if g.toLower ≠ a.toLower then ⟨false, msgMismatch g a⟩
                else ⟨true, msgLpValid⟩))
      by_cases hm : g.toLower = a.toLower
      · rw [if_neg (not_not_intro hm)]
        exact Relation.ReflTransGen.single (VStep.lpMatch a f lp g hg hm)
      · rw [if_pos hm]
        exact Relation.ReflTransGen.single (VStep.lpMismatch a f lp g hg hm)
  have runNonLp : ∀ a f, VReaches chain (.nonLpBranch a f)
      (.done (verifyFromNonLp chain a f)) := by
    intro a f
    unfold verifyFromNonLp
    cases hg : chain.isValidGauge f a with
    | error e =>
      cases e
      exact Relation.ReflTransGen.single (VStep.nonLpRevert a f hg)
    | ok b =>
      cases b
      · exact Relation.ReflTransGen.single (VStep.nonLpFalse a f hg)
      · exact Relation.ReflTransGen.single (VStep.nonLpTrue a f hg)
  have runProbe : ∀ a f, VReaches chain (.lpProbe a f)
      (.done (verifyFromLpProbe chain a f)) := by
    intro a f
    unfold verifyFromLpProbe
    cases hg : chain.lpTokenCall a with
    | error e =>
      cases e
      exact Relation.ReflTransGen.head (VStep.lpProbeNo a f hg) (runNonLp a f)
    | ok lp =>
      exact Relation.ReflTransGen.head (VStep.lpProbeYes a f lp hg) (runLp a f lp)
  have runFactory : ∀ a, VReaches chain (.factoryCheck a)
      (.done (verifyFromFactory chain a)) := by
    intro a
    unfold verifyFromFactory
    cases hg : chain.factoryCall a with
    | error e =>
      cases e
      exact Relation.ReflTransGen.single (VStep.factoryRevert a hg)
    | ok f =>
      show VReaches chain (VState.factoryCheck a)
        (.done (if f ∈ TRUSTED_FACTORIES then verifyFromLpProbe chain a f
                else ⟨false, msgUntrusted⟩))
      by_cases hf : f ∈ TRUSTED_FACTORIES
      · rw [if_pos hf]
        exact Relation.ReflTransGen.head (VStep.factoryTrusted a f hg hf)
          (runProbe a f)
      · rw [if_neg hf]
        exact Relation.ReflTransGen.single (VStep.factoryUntrusted a f hg hf)
  have runContract : ∀ a, VReaches chain (.contractCheck a)
      (.done (verifyFromContract chain a)) := by
    intro a
    unfold verifyFromContract
    by_cases hv : is_valid_contract chain a = true
    · rw [if_pos hv]
      exact Relation.ReflTransGen.head (VStep.isContract a hv) (runFactory a)
    · rw [if_neg hv]
      exact Relation.ReflTransGen.single
        (VStep.notContract a (Bool.not_eq_true _ ▸ (by simpa using hv)))
  cases p with
  | none => exact Relation.ReflTransGen.single VStep.noAddr
  | some a0 =>
    by_cases h0 : a0 = ""
    · subst h0
      have hv : verify_gauge chain (some "") = ⟨false, msgNoAddress⟩ := by
        simp [verify_gauge]
      rw [hv]
      exact Relation.ReflTransGen.single VStep.emptyAddr
    · by_cases hA : chain.isAddress a0 = true
      · have hv : verify_gauge chain (some a0)
            = verifyFromContract chain (chain.toChecksum a0) := by
          simp [verify_gauge, h0, hA]
        rw [hv]
        exact Relation.ReflTransGen.head (VStep.goodAddr a0 h0 hA)
          (runContract (chain.toChecksum a0))
      · have hA' : chain.isAddress a0 = false := by simpa using hA
        have hv : verify_gauge chain (some a0) = ⟨false, msgInvalidAddress⟩ := by
          simp [verify_gauge, h0, hA']
        rw [hv]
        exact Relation.ReflTransGen.single (VStep.badAddr a0 h0 hA')

/-! ## C9 and C7: verification determinism and the dead no-code check -/

/-- C9: for a fixed on-chain state (one fixed oracle), every complete run of
the verification walk on the same address terminates in the outcome computed
by `verify_gauge`, and any two runs yield identical outcomes — the same
`is_valid` flag, the same message, the same terminal state; the step relation
itself admits no internal choice (`vstep_deterministic`). -/
theorem C9_verify_deterministic (chain : VChain) (p : Option String)
    (o₁ o₂ : VOutcome)
    (h1 : VReaches chain (.start p) (.done o₁))
    (h2 : VReaches chain (.start p) (.done o₂)) :
    o₁ = verify_gauge chain p ∧ o₂ = verify_gauge chain p ∧
    o₁ = o₂ ∧ o₁.is_valid = o₂.is_valid ∧ o₁.message = o₂.message := by
  have hr := verify_gauge_run chain p
  have e1 := vreaches_done_unique chain h1 hr
  have e2 := vreaches_done_unique chain h2 hr
  exact ⟨e1, e2, e1.trans e2.symm, by rw [e1, e2], by rw [e1, e2]⟩

/-- A fixed healthy on-chain state: a contract whose factory is the first
trusted factory and whose LP-token gauge lookup returns the candidate. -/
def vTestChain : VChain where
  getCode := fun _ => .ok [96, 128]
  isAddress := fun _ => true
  toChecksum := fun s => s
  factoryCall := fun _ => .ok "0x6A8cbed756804B16E05E741eDaBd5cB544AE21bf"
  lpTokenCall := fun _ => .ok "0xlptoken"
  getGauge := fun _ _ => .ok "0xMyGauge"
  isValidGauge := fun _ _ => .ok true

/-- Witness for C9: two complete runs against the same fixed state. -/
theorem C9_verify_deterministic_witness :
    verify_gauge vTestChain (some "0xmygauge")
        = verify_gauge vTestChain (some "0xmygauge") ∧
    verify_gauge vTestChain (some "0xmygauge")
        = verify_gauge vTestChain (some "0xmygauge") ∧
    verify_gauge vTestChain (some "0xmygauge")
        = verify_gauge vTestChain (some "0xmygauge") ∧
    (verify_gauge vTestChain (some "0xmygauge")).is_valid
        = (verify_gauge vTestChain (some "0xmygauge")).is_valid ∧
    (verify_gauge vTestChain (some "0xmygauge")).message
        = (verify_gauge vTestChain (some "0xmygauge")).message :=
  C9_verify_deterministic vTestChain (some "0xmygauge") _ _
    (verify_gauge_run vTestChain (some "0xmygauge"))
    (verify_gauge_run vTestChain (some "0xmygauge"))

/-- A syntactically valid address with no deployed code: `get_code` returns
the empty byte string, and every contract call on the address raises (an
`eth_call` against a codeless account returns no data, which web3 fails to
decode). -/
def noCodeChain : VChain where
  getCode := fun _ => .ok []
  isAddress := fun _ => true
  toChecksum := fun s => s
  factoryCall := fun _ => .error ()
  lpTokenCall := fun _ => .error ()
  getGauge := fun _ _ => .error ()
  isValidGauge := fun _ _ => .error ()

def deadAddress : String := "0x0000000000000000000000000000000000000001"

/-- C7 (code bug): for an address with no deployed code, `is_valid_contract`
compares the empty *bytes* result of `get_code` against the *strings* `'0x'`
and `'0x0'`; in Python 3 a bytes value never equals a str value, so the
check returns `True` and the "Supplied address is not a valid contract."
rejection never fires — verification proceeds to the factory call and ends
with the factory-revert message instead. -/
theorem C7_no_code_not_rejected :
    noCodeChain.getCode deadAddress = .ok [] ∧
    is_valid_contract noCodeChain deadAddress = true ∧
    verify_gauge noCodeChain (some deadAddress) = ⟨false, msgFactoryRevert⟩ ∧
    (verify_gauge noCodeChain (some deadAddress)).message ≠ msgNotContract := by
  refine ⟨rfl, rfl, rfl, ?_⟩
  decide

end Wavey
